import Mathlib

/-!
Verification of the mini-seller-console state synchronization engine.

The definitions below are a shallow embedding of the reducer-driven state
container in `src/context/AppContext.jsx` and of the derived-view computation
in `src/components/leads/LeadsList.jsx`.  JavaScript objects become Lean
structures, the string-tagged action union becomes an inductive type, and the
asynchronous operations (`updateLead`, `convertLeadToOpportunity`) become
pure functions parameterised by the outcomes of their simulated remote calls
(the `Math.random()` draws) and by the environment-produced values
(uuid, `Date.now()`-derived id and close date, random amount).
-/

namespace Seller

/-- A lead record, after `src/context/AppContext.jsx` and the fields listed in
the data files (id, name, company, email, source, score, status). -/
structure Lead where
  id : String
  name : String
  company : String
  email : String
  source : String
  score : Nat
  status : String
deriving Repr, DecidableEq

/-- An opportunity record, with the fields built in `convertLeadToOpportunity`. -/
structure Opportunity where
  id : String
  name : String
  stage : String
  amount : Nat
  accountName : String
  leadId : String
  probability : Nat
  expectedCloseDate : String
deriving Repr, DecidableEq

/-- The filter criteria object persisted under `seller_console_filters`. -/
structure Filters where
  search : String
  status : String
  sortBy : String
  sortOrder : String
deriving Repr, DecidableEq

/-- A partial filters object, as passed to `setFilters` / SET_FILTERS; a `none`
field is an absent key, and the JS spread `{ ...state.filters, ...payload }`
keeps the old value for absent keys. -/
structure FiltersPatch where
  search : Option String := none
  status : Option String := none
  sortBy : Option String := none
  sortOrder : Option String := none
deriving Repr, DecidableEq

/-- JS spread merge `{ ...filters, ...patch }` for the filters object. -/
def applyFiltersPatch (f : Filters) (p : FiltersPatch) : Filters :=
  { search := p.search.getD f.search
    status := p.status.getD f.status
    sortBy := p.sortBy.getD f.sortBy
    sortOrder := p.sortOrder.getD f.sortOrder }

/-- A partial lead object: the `updates` argument of `updateLead` / the
UPDATE_LEAD action payload.  A `none` field is an absent key. -/
structure LeadPatch where
  id : Option String := none
  name : Option String := none
  company : Option String := none
  email : Option String := none
  source : Option String := none
  score : Option Nat := none
  status : Option String := none
deriving Repr, DecidableEq

/-- JS spread merge `{ ...lead, ...updates }`. -/
def applyPatch (l : Lead) (p : LeadPatch) : Lead :=
  { id := p.id.getD l.id
    name := p.name.getD l.name
    company := p.company.getD l.company
    email := p.email.getD l.email
    source := p.source.getD l.source
    score := p.score.getD l.score
    status := p.status.getD l.status }

/-- The application state held by the reducer (`initialState` shape in
`AppContext.jsx`): both collections, the selection mirror, loading flag,
current error, filter criteria and the transient live message. -/
structure AppState where
  leads : List Lead
  opportunities : List Opportunity
  selectedLead : Option Lead
  isLoading : Bool
  error : Option String
  filters : Filters
  liveMessage : String
deriving Repr, DecidableEq

/-- The action union of `ACTION_TYPES` in `AppContext.jsx` as a sum type. -/
inductive Action where
  | setLeads (payload : List Lead)
  | setOpportunities (payload : List Opportunity)
  | setLoading (payload : Bool)
  | setError (payload : Option String)
  | setSelectedLead (payload : Option Lead)
  | clearError
  | setLiveMessage (payload : String)
  | updateLead (id : String) (updates : LeadPatch)
  | addOpportunity (payload : Opportunity)
  | setFilters (payload : FiltersPatch)
  | updateLeadRollback (id : String) (originalLead : Lead)
deriving Repr, DecidableEq

/-- The reducer `appReducer` of `AppContext.jsx`, case by case.  Note that
SET_LEADS and SET_ERROR also clear the loading flag, that UPDATE_LEAD merges
into the matching lead and into the selection mirror when it has the same id,
and that UPDATE_LEAD_ROLLBACK replaces both wholesale with the snapshot. -/
def appReducer (state : AppState) (action : Action) : AppState :=
  match action with
  | .setLeads payload => { state with leads := payload, isLoading := false }
  | .setOpportunities payload => { state with opportunities := payload }
  | .setLoading payload => { state with isLoading := payload }
  | .setError payload => { state with error := payload, isLoading := false }
  | .setSelectedLead payload => { state with selectedLead := payload }
  | .clearError => { state with error := none }
  | .setLiveMessage payload => { state with liveMessage := payload }
  | .updateLead id updates =>
      { state with
        leads := state.leads.map fun lead =>
          if lead.id == id then applyPatch lead updates else lead
        selectedLead :=
          match state.selectedLead with
          | some sel => if sel.id == id then some (applyPatch sel updates) else some sel
          | none => none }
  | .addOpportunity payload =>
      { state with opportunities := state.opportunities ++ [payload] }
  | .setFilters payload =>
      { state with filters := applyFiltersPatch state.filters payload }
  | .updateLeadRollback id originalLead =>
      { state with
        leads := state.leads.map fun lead =>
          if lead.id == id then originalLead else lead
        selectedLead :=
          match state.selectedLead with
          | some sel => if sel.id == id then some originalLead else some sel
          | none => none }

/-- The `updateLead` action creator of `AppContext.jsx`, with the outcome of
the simulated API call (`Math.random() < 0.1`) made explicit as `apiFails`.
The dispatches of one invocation are applied in program order. -/
def updateLead (state : AppState) (leadId : String) (updates : LeadPatch)
    (optimistic : Bool) (apiFails : Bool) : AppState :=
  match state.leads.find? (fun l => l.id == leadId) with
  | none => appReducer state (.setError (some "Lead não encontrado"))
  | some originalLead =>
      let s1 := if optimistic then appReducer state (.updateLead leadId updates) else state
      if apiFails then
        let s2 := if optimistic
          then appReducer s1 (.updateLeadRollback leadId originalLead)
          else s1
        appReducer s2 (.setError (some "Lead upgrade failed"))
      else
        if optimistic then s1 else appReducer s1 (.updateLead leadId updates)

/-- The `addOpportunity` action creator: overwrites the id with a fresh uuid
(`freshId` stands for the `uuidv4()` draw) and dispatches ADD_OPPORTUNITY. -/
def addOpportunity (state : AppState) (opportunity : Opportunity)
    (freshId : String) : AppState :=
  appReducer state (.addOpportunity { opportunity with id := freshId })

/-- Environment inputs of one `convertLeadToOpportunity` invocation: the two
simulated-call outcomes (`Math.random() < 0.05` for the conversion call and
`Math.random() < 0.1` inside the nested `updateLead`), the
`opp-` dollar-brace `Date.now()` id, the random amount, the derived
expected close date, and the `uuidv4()` drawn inside `addOpportunity`. -/
structure ConvEnv where
  convertFails : Bool
  statusFails : Bool
  timeId : String
  amount : Nat
  closeDate : String
  freshId : String
deriving Repr, DecidableEq

/-- The opportunity object literal built in `convertLeadToOpportunity`. -/
def mkOpportunity (lead : Lead) (leadId : String) (env : ConvEnv) : Opportunity :=
  { id := env.timeId
    name := lead.company ++ " - Sales Opportunity"
    stage := "qualification"
    amount := env.amount
    accountName := lead.company
    leadId := leadId
    probability := lead.score
    expectedCloseDate := env.closeDate }

/-- The `{ status: 'qualified' }` update object. -/
def qualifiedPatch : LeadPatch := { status := some "qualified" }

/-- The `convertLeadToOpportunity` action creator of `AppContext.jsx`:
lookup, duplicate check, loading on, simulated call, opportunity creation,
pessimistic status update via `updateLead`, loading off; on failure of the
first call, error plus loading off. -/
def convertLeadToOpportunity (state : AppState) (leadId : String)
    (env : ConvEnv) : AppState :=
  match state.leads.find? (fun l => l.id == leadId) with
  | none => appReducer state (.setError (some "Lead not found"))
  | some lead =>
      match state.opportunities.find? (fun opp => opp.leadId == leadId) with
      | some _ =>
          appReducer state (.setError (some "Lead already converted into opportunity"))
      | none =>
          let s1 := appReducer state (.setLoading true)
          if env.convertFails then
            let s2 := appReducer s1 (.setError (some "Failed to convert lead"))
            appReducer s2 (.setLoading false)
          else
            let opportunity := mkOpportunity lead leadId env
            let s2 := addOpportunity s1 opportunity env.freshId
            let s3 := updateLead s2 leadId qualifiedPatch false env.statusFails
            appReducer s3 (.setLoading false)

/-- The default filter criteria returned by `loadFiltersFromStorage` when the
key is absent or unreadable. -/
def defaultFilters : Filters :=
  { search := "", status := "all", sortBy := "score", sortOrder := "desc" }

/-- The localStorage cell for the `seller_console_filters` key, represented at
the JSON-value level: `absent` models a missing key (or empty string, which
the `if (saved)` truthiness test also skips), `malformed` models a stored
string that `JSON.parse` rejects, and `value f` models the `JSON.stringify`
encoding of the filters object `f` (string-level round-tripping of the flat
string-field object is the platform guarantee `JSON.parse ∘ JSON.stringify = id`). -/
inductive StoredCell where
  | absent
  | malformed
  | value (filters : Filters)
deriving Repr, DecidableEq

/-- `loadFiltersFromStorage` of `AppContext.jsx`: parse result when present,
defaults when absent or when parsing throws. -/
def loadFiltersFromStorage (cell : StoredCell) : Filters :=
  match cell with
  | .value f => f
  | .absent => defaultFilters
  | .malformed => defaultFilters

/-- The provider's initial state (the `useReducer` initializer), parameterised
by the storage cell read synchronously at construction. -/
def initialState (cell : StoredCell) : AppState :=
  { leads := []
    opportunities := []
    selectedLead := none
    isLoading := false
    error := none
    filters := loadFiltersFromStorage cell
    liveMessage := "" }

/-- The filled-in patch carrying every field of `f`; the `setFilters` action
creator dispatches the fully merged filters object as the SET_FILTERS payload. -/
def fullFiltersPatch (f : Filters) : FiltersPatch :=
  { search := some f.search
    status := some f.status
    sortBy := some f.sortBy
    sortOrder := some f.sortOrder }

/-- The `setFilters` action creator: merge, best-effort write to storage
(`writeFails` models a throwing `localStorage.setItem`, which is caught and
only logged), then dispatch the merged object.  Returns the new application
state together with the new storage cell. -/
def setFilters (state : AppState) (cell : StoredCell) (patch : FiltersPatch)
    (writeFails : Bool) : AppState × StoredCell :=
  let newFilters := applyFiltersPatch state.filters patch
  let cell' := if writeFails then cell else StoredCell.value newFilters
  (appReducer state (.setFilters (fullFiltersPatch newFilters)), cell')

/-- CLAIM C10 (set-error frame): the reducer's SET_ERROR transition stores the
payload in the error field, clears the loading flag as a side effect, and
leaves every other field of the state unchanged. -/
theorem setError_frame (s : AppState) (payload : Option String) :
    (appReducer s (.setError payload)).error = payload ∧
    (appReducer s (.setError payload)).isLoading = false ∧
    (appReducer s (.setError payload)).leads = s.leads ∧
    (appReducer s (.setError payload)).opportunities = s.opportunities ∧
    (appReducer s (.setError payload)).selectedLead = s.selectedLead ∧
    (appReducer s (.setError payload)).filters = s.filters ∧
    (appReducer s (.setError payload)).liveMessage = s.liveMessage := by
  refine ⟨rfl, rfl, rfl, rfl, rfl, rfl, rfl⟩

/-- CLAIM C8 (filter persistence round-trip): criteria set via `setFilters` are
persisted merged; a fresh store initialised from the same cell reconstructs
exactly the criteria that were set, and an absent or malformed cell yields the
default criteria. -/
theorem filters_roundtrip (s : AppState) (cell : StoredCell) (p : FiltersPatch) :
    (initialState (setFilters s cell p false).2).filters
        = (setFilters s cell p false).1.filters
    ∧ (initialState (setFilters s cell p false).2).filters
        = applyFiltersPatch s.filters p
    ∧ (initialState StoredCell.absent).filters = defaultFilters
    ∧ (initialState StoredCell.malformed).filters = defaultFilters := by
  refine ⟨rfl, rfl, rfl, rfl⟩

/-- The Elizabeth Bennet lead from the spec scenario. -/
def sampleLead : Lead :=
  { id := "1", name := "Elizabeth Bennet", company := "Pride and Prejudice Ltd"
    email := "", source := "", score := 95, status := "new" }

/-- A state holding only the sample lead, with no opportunities. -/
def sampleState : AppState :=
  { leads := [sampleLead], opportunities := [], selectedLead := none
    isLoading := false, error := none, filters := defaultFilters, liveMessage := "" }

/-- An opportunity already converted from lead "1". -/
def sampleOpp : Opportunity :=
  { id := "o1", name := "Pride and Prejudice Ltd - Sales Opportunity"
    stage := "qualification", amount := 30000
    accountName := "Pride and Prejudice Ltd", leadId := "1", probability := 95
    expectedCloseDate := "2025-01-01" }

/-- A conversion environment in which both simulated calls succeed. -/
def sampleEnv : ConvEnv :=
  { convertFails := false, statusFails := false, timeId := "opp-1700000000000"
    amount := 20000, closeDate := "2025-01-01", freshId := "uuid-1" }

/-- COUNTEREXAMPLE for CLAIM C9: when the id matches no lead, the current
error is set to the literal "Lead não encontrado", not to "record not found"
as the claim states. -/
theorem updateLead_notFound_message_cex :
    (updateLead sampleState "9" {} true false).error ≠ some "record not found" := by
  decide

/-- CLAIM C9 (amended): when the id matches no lead, `updateLead` fails
immediately with the message "Lead não encontrado", leaves the record and
opportunity collections and the selection unchanged (the set-error transition
also clears the loading flag), and its result does not depend on the outcome
of the simulated call — no call is consumed. -/
theorem updateLead_notFound (s : AppState) (leadId : String) (p : LeadPatch)
    (opt f f' : Bool)
    (h : s.leads.find? (fun l => l.id == leadId) = none) :
    updateLead s leadId p opt f
        = { s with error := some "Lead não encontrado", isLoading := false }
    ∧ updateLead s leadId p opt f = updateLead s leadId p opt f' := by
  constructor
  · simp [updateLead, h, appReducer]
  · simp [updateLead, h]

/-- Witness for `updateLead_notFound` at a concrete state. -/
theorem updateLead_notFound_w :
    sampleState.leads.find? (fun l => l.id == "9") = none
    ∧ (updateLead sampleState "9" {} true true
          = { sampleState with error := some "Lead não encontrado", isLoading := false }
        ∧ updateLead sampleState "9" {} true true
          = updateLead sampleState "9" {} true false) :=
  ⟨by decide, updateLead_notFound sampleState "9" {} true true false (by decide)⟩

/-- COUNTEREXAMPLE for CLAIM C4: converting an already-converted lead does not
leave the loading flag unchanged — the set-error dispatch also clears it, so a
state entered with the flag raised comes out with it lowered. -/
theorem convert_dup_loading_cex :
    (convertLeadToOpportunity
        { sampleState with opportunities := [sampleOpp], isLoading := true }
        "1" sampleEnv).isLoading
      ≠ ({ sampleState with opportunities := [sampleOpp], isLoading := true } :
          AppState).isLoading := by
  decide

/-- CLAIM C4 (amended): when the lead exists and an opportunity with the same
back-reference already exists, `convertLeadToOpportunity` leaves both
collections and the selection unchanged, sets the current error to exactly
"Lead already converted into opportunity", lowers the loading flag (a side
effect of the set-error transition), and consumes no simulated call (the
result does not depend on the environment). -/
theorem convert_alreadyConverted (s : AppState) (leadId : String)
    (env env' : ConvEnv) (lead : Lead) (opp : Opportunity)
    (hl : s.leads.find? (fun l => l.id == leadId) = some lead)
    (ho : s.opportunities.find? (fun o => o.leadId == leadId) = some opp) :
    convertLeadToOpportunity s leadId env
        = { s with error := some "Lead already converted into opportunity",
                   isLoading := false }
    ∧ convertLeadToOpportunity s leadId env = convertLeadToOpportunity s leadId env' := by
  constructor
  · simp [convertLeadToOpportunity, hl, ho, appReducer]
  · simp [convertLeadToOpportunity, hl, ho]

/-- Witness for `convert_alreadyConverted` at a concrete state. -/
theorem convert_alreadyConverted_w :
    ({ sampleState with opportunities := [sampleOpp] } :
        AppState).leads.find? (fun l => l.id == "1") = some sampleLead
    ∧ ({ sampleState with opportunities := [sampleOpp] } :
        AppState).opportunities.find? (fun o => o.leadId == "1") = some sampleOpp
    ∧ (convertLeadToOpportunity { sampleState with opportunities := [sampleOpp] } "1" sampleEnv
          = { ({ sampleState with opportunities := [sampleOpp] } : AppState) with
                error := some "Lead already converted into opportunity",
                isLoading := false }
        ∧ convertLeadToOpportunity { sampleState with opportunities := [sampleOpp] } "1" sampleEnv
          = convertLeadToOpportunity { sampleState with opportunities := [sampleOpp] } "1"
              { sampleEnv with convertFails := true }) :=
  ⟨by decide, by decide,
    convert_alreadyConverted _ "1" sampleEnv { sampleEnv with convertFails := true }
      sampleLead sampleOpp (by decide) (by decide)⟩

/-- Applying the `{ status := "qualified" }` patch to the first lead found by
id survives the per-element update map: the first match is patched in place. -/
theorem find?_map_qualified (l : List Lead) (leadId : String) (lead : Lead)
    (h : l.find? (fun x => x.id == leadId) = some lead) :
    (l.map fun x => if x.id == leadId then applyPatch x qualifiedPatch else x).find?
        (fun x => x.id == leadId) = some (applyPatch lead qualifiedPatch) := by
  induction l with
  | nil => simp at h
  | cons a t ih =>
      simp only [List.map_cons]
      by_cases ha : (a.id == leadId) = true
      · have hid : (applyPatch a qualifiedPatch).id = a.id := rfl
        rw [List.find?_cons_of_pos (p := fun x : Lead => x.id == leadId) _ ha] at h
        cases h
        rw [if_pos ha]
        exact List.find?_cons_of_pos (p := fun x : Lead => x.id == leadId) _
          (by simpa [hid] using ha)
      · rw [List.find?_cons_of_neg (p := fun x : Lead => x.id == leadId) _ ha] at h
        rw [if_neg ha, List.find?_cons_of_neg (p := fun x : Lead => x.id == leadId) _ ha]
        exact ih h

/-- CLAIM C2 (successful conversion): with both simulated calls forced to
succeed, converting an unconverted lead appends exactly one opportunity whose
accountName is the lead's company, whose probability is the lead's score and
whose leadId is the source id; the source lead's status becomes "qualified"
and the loading flag ends lowered. -/
theorem convert_success (s : AppState) (leadId : String) (env : ConvEnv) (lead : Lead)
    (hl : s.leads.find? (fun l => l.id == leadId) = some lead)
    (ho : s.opportunities.find? (fun o => o.leadId == leadId) = none)
    (hcf : env.convertFails = false) (hsf : env.statusFails = false) :
    (convertLeadToOpportunity s leadId env).opportunities
        = s.opportunities ++ [{ mkOpportunity lead leadId env with id := env.freshId }]
    ∧ ({ mkOpportunity lead leadId env with id := env.freshId } : Opportunity).accountName
        = lead.company
    ∧ ({ mkOpportunity lead leadId env with id := env.freshId } : Opportunity).probability
        = lead.score
    ∧ ({ mkOpportunity lead leadId env with id := env.freshId } : Opportunity).leadId
        = leadId
    ∧ (convertLeadToOpportunity s leadId env).leads.find? (fun l => l.id == leadId)
        = some { lead with status := "qualified" }
    ∧ (convertLeadToOpportunity s leadId env).isLoading = false := by
  have hfind := find?_map_qualified s.leads leadId lead hl
  refine ⟨?_, rfl, rfl, rfl, ?_, ?_⟩
  · simp [convertLeadToOpportunity, hl, ho, hcf, hsf, addOpportunity, updateLead,
      appReducer]
  · simp [convertLeadToOpportunity, hl, ho, hcf, hsf, addOpportunity, updateLead,
      appReducer]
    simpa [applyPatch, qualifiedPatch] using hfind
  · simp [convertLeadToOpportunity, hl, ho, hcf, hsf, addOpportunity, updateLead,
      appReducer]

/-- Witness for `convert_success` at the spec's Elizabeth Bennet scenario. -/
theorem convert_success_w :
    sampleState.leads.find? (fun l => l.id == "1") = some sampleLead
    ∧ sampleState.opportunities.find? (fun o => o.leadId == "1") = none
    ∧ sampleEnv.convertFails = false
    ∧ sampleEnv.statusFails = false
    ∧ ((convertLeadToOpportunity sampleState "1" sampleEnv).opportunities
        = sampleState.opportunities
            ++ [{ mkOpportunity sampleLead "1" sampleEnv with id := sampleEnv.freshId }]
      ∧ ({ mkOpportunity sampleLead "1" sampleEnv with
            id := sampleEnv.freshId } : Opportunity).accountName = sampleLead.company
      ∧ ({ mkOpportunity sampleLead "1" sampleEnv with
            id := sampleEnv.freshId } : Opportunity).probability = sampleLead.score
      ∧ ({ mkOpportunity sampleLead "1" sampleEnv with
            id := sampleEnv.freshId } : Opportunity).leadId = "1"
      ∧ (convertLeadToOpportunity sampleState "1" sampleEnv).leads.find?
            (fun l => l.id == "1") = some { sampleLead with status := "qualified" }
      ∧ (convertLeadToOpportunity sampleState "1" sampleEnv).isLoading = false) :=
  ⟨by decide, by decide, rfl, rfl,
    convert_success sampleState "1" sampleEnv sampleLead (by decide) (by decide) rfl rfl⟩

/-- CLAIM C7 (failed second step): when the conversion call succeeds but the
pessimistic status update fails, the appended opportunity stays in the
collection, the lead list is left untouched (no "qualified" transition), the
current error is the second step's message, and the loading flag ends false. -/
theorem convert_statusStep_fails (s : AppState) (leadId : String) (env : ConvEnv)
    (lead : Lead)
    (hl : s.leads.find? (fun l => l.id == leadId) = some lead)
    (ho : s.opportunities.find? (fun o => o.leadId == leadId) = none)
    (hcf : env.convertFails = false) (hsf : env.statusFails = true) :
    (convertLeadToOpportunity s leadId env).opportunities
        = s.opportunities ++ [{ mkOpportunity lead leadId env with id := env.freshId }]
    ∧ (convertLeadToOpportunity s leadId env).leads = s.leads
    ∧ (convertLeadToOpportunity s leadId env).error = some "Lead upgrade failed"
    ∧ (convertLeadToOpportunity s leadId env).isLoading = false := by
  simp [convertLeadToOpportunity, hl, ho, hcf, hsf, addOpportunity, updateLead,
    appReducer]

/-- Witness for `convert_statusStep_fails` at a concrete state. -/
theorem convert_statusStep_fails_w :
    sampleState.leads.find? (fun l => l.id == "1") = some sampleLead
    ∧ sampleState.opportunities.find? (fun o => o.leadId == "1") = none
    ∧ ((convertLeadToOpportunity sampleState "1"
          { sampleEnv with statusFails := true }).opportunities
        = sampleState.opportunities
            ++ [{ mkOpportunity sampleLead "1" { sampleEnv with statusFails := true } with
                    id := sampleEnv.freshId }]
      ∧ (convertLeadToOpportunity sampleState "1"
            { sampleEnv with statusFails := true }).leads = sampleState.leads
      ∧ (convertLeadToOpportunity sampleState "1"
            { sampleEnv with statusFails := true }).error = some "Lead upgrade failed"
      ∧ (convertLeadToOpportunity sampleState "1"
            { sampleEnv with statusFails := true }).isLoading = false) :=
  ⟨by decide, by decide,
    convert_statusStep_fails sampleState "1" { sampleEnv with statusFails := true }
      sampleLead (by decide) (by decide) rfl rfl⟩

/-- COUNTEREXAMPLE for CLAIM C3: the rollback does not restore the record for
every partial update — a patch that rewrites the id field makes the optimistic
write change the lead's id, after which the rollback's id scan no longer
matches it, so the mutated lead survives the failure. -/
theorem updateLead_rollback_cex :
    (updateLead sampleState "1" { id := some "2" } true true).leads
      ≠ sampleState.leads := by
  decide

/-- When the patch does not carry an id key, the merged lead keeps its id. -/
theorem applyPatch_id (l : Lead) (p : LeadPatch) (h : p.id = none) :
    (applyPatch l p).id = l.id := by
  simp [applyPatch, h]

/-- With pairwise-distinct lead ids, any member matching the searched id is the
lead returned by `find?`. -/
theorem find?_unique (l : List Lead) (leadId : String) (lead : Lead)
    (hnd : (l.map Lead.id).Nodup)
    (hl : l.find? (fun y => y.id == leadId) = some lead) :
    ∀ x ∈ l, (x.id == leadId) = true → x = lead := by
  induction l with
  | nil => simp at hl
  | cons a t ih =>
      simp only [List.map_cons, List.nodup_cons] at hnd
      intro x hx hxid
      by_cases ha : (a.id == leadId) = true
      · rw [List.find?_cons_of_pos (p := fun y : Lead => y.id == leadId) _ ha] at hl
        cases hl
        rcases List.mem_cons.mp hx with hxa | hxt
        · exact hxa
        · exfalso
          apply hnd.1
          have : x.id = lead.id := by
            have h1 := of_decide_eq_true hxid
            have h2 := of_decide_eq_true ha
            simp only [beq_iff_eq] at hxid ha
            rw [hxid, ha]
          rw [← this]
          exact List.mem_map_of_mem Lead.id hxt
      · rw [List.find?_cons_of_neg (p := fun y : Lead => y.id == leadId) _ ha] at hl
        rcases List.mem_cons.mp hx with hxa | hxt
        · exact absurd (hxa ▸ hxid) ha
        · exact ih hnd.2 hl x hxt hxid

/-- CLAIM C3 (amended): for a state with pairwise-distinct lead ids whose
selection mirror, when it carries the searched id, equals the stored lead, an
optimistic `updateLead` with the simulated call forced to fail and a patch
that does not rewrite the id field first dispatches the optimistic merge, then
the rollback and the error: the leads and the mirror end exactly at their
pre-mutation values and the current error is the failure's message. -/
theorem updateLead_optimistic_rollback (s : AppState) (leadId : String)
    (p : LeadPatch) (lead : Lead)
    (hl : s.leads.find? (fun l => l.id == leadId) = some lead)
    (hid : p.id = none)
    (hnd : (s.leads.map Lead.id).Nodup)
    (hm : ∀ sel, s.selectedLead = some sel → sel.id = leadId → sel = lead) :
    updateLead s leadId p true true
      = appReducer (appReducer (appReducer s (.updateLead leadId p))
          (.updateLeadRollback leadId lead)) (.setError (some "Lead upgrade failed"))
    ∧ (updateLead s leadId p true true).leads = s.leads
    ∧ (updateLead s leadId p true true).selectedLead = s.selectedLead
    ∧ (updateLead s leadId p true true).error = some "Lead upgrade failed" := by
  have hstep : updateLead s leadId p true true
      = appReducer (appReducer (appReducer s (.updateLead leadId p))
          (.updateLeadRollback leadId lead)) (.setError (some "Lead upgrade failed")) := by
    simp [updateLead, hl]
  have hleads : (updateLead s leadId p true true).leads = s.leads := by
    rw [hstep]
    simp only [appReducer, List.map_map]
    have : ∀ x ∈ s.leads,
        ((fun l => if l.id == leadId then lead else l) ∘
          (fun l => if l.id == leadId then applyPatch l p else l)) x = x := by
      intro x hx
      by_cases hxid : (x.id == leadId) = true
      · have h1 : (applyPatch x p).id == leadId := by
          rw [applyPatch_id x p hid]; exact hxid
        simp only [Function.comp, hxid, if_pos, h1]
        exact (find?_unique s.leads leadId lead hnd hl x hx hxid).symm
      · simp only [Function.comp, hxid]
        simp [hxid]
    calc (s.leads.map ((fun l => if l.id == leadId then lead else l) ∘
            (fun l => if l.id == leadId then applyPatch l p else l)))
        = s.leads.map id := List.map_congr_left this
      _ = s.leads := List.map_id s.leads
  have hsel : (updateLead s leadId p true true).selectedLead = s.selectedLead := by
    rw [hstep]
    cases hs : s.selectedLead with
    | none => simp [appReducer, hs]
    | some sel =>
        by_cases hselid : (sel.id == leadId) = true
        · have h2 : sel = lead := hm sel hs (by simpa using hselid)
          have hlid : lead.id = leadId := by rw [← h2]; simpa using hselid
          have hpid : (applyPatch lead p).id = leadId := by
            rw [applyPatch_id lead p hid]; exact hlid
          simp [appReducer, hs, h2, hlid, hpid]
        · simp [appReducer, hs, hselid]
  exact ⟨hstep, hleads, hsel, by rw [hstep]; rfl⟩

/-- Witness for `updateLead_optimistic_rollback` at a concrete state with the
sample lead selected. -/
theorem updateLead_optimistic_rollback_w :
    ({ sampleState with selectedLead := some sampleLead } :
        AppState).leads.find? (fun l => l.id == "1") = some sampleLead
    ∧ ({ email := some "lizzy@longbourn.uk" } : LeadPatch).id = none
    ∧ (({ sampleState with selectedLead := some sampleLead } :
        AppState).leads.map Lead.id).Nodup
    ∧ ((updateLead { sampleState with selectedLead := some sampleLead } "1"
          { email := some "lizzy@longbourn.uk" } true true).leads
        = ({ sampleState with selectedLead := some sampleLead } : AppState).leads
      ∧ (updateLead { sampleState with selectedLead := some sampleLead } "1"
          { email := some "lizzy@longbourn.uk" } true true).selectedLead
        = ({ sampleState with selectedLead := some sampleLead } : AppState).selectedLead
      ∧ (updateLead { sampleState with selectedLead := some sampleLead } "1"
          { email := some "lizzy@longbourn.uk" } true true).error
        = some "Lead upgrade failed") :=
  ⟨by decide, rfl, by decide,
    (updateLead_optimistic_rollback { sampleState with selectedLead := some sampleLead }
      "1" { email := some "lizzy@longbourn.uk" } sampleLead (by decide) rfl (by decide)
      (fun sel hs _ => (Option.some_inj.mp hs).symm)).2⟩

/-- One public operation on the store: a raw reducer transition, an
`updateLead` invocation, a `convertLeadToOpportunity` invocation, or a direct
`addOpportunity` invocation (all exposed through the context value). -/
inductive Step where
  | reduce (a : Action)
  | update (leadId : String) (updates : LeadPatch) (optimistic apiFails : Bool)
  | convert (leadId : String) (env : ConvEnv)
  | addOpp (opportunity : Opportunity) (freshId : String)
deriving Repr, DecidableEq

/-- Apply one public operation. -/
def applyStep (s : AppState) : Step → AppState
  | .reduce a => appReducer s a
  | .update leadId p o f => updateLead s leadId p o f
  | .convert leadId env => convertLeadToOpportunity s leadId env
  | .addOpp o fid => addOpportunity s o fid

/-- Apply a sequence of public operations in order. -/
def applySteps (s : AppState) (steps : List Step) : AppState :=
  steps.foldl applyStep s

/-- The claimed invariant: for every record id, at most one opportunity holds
it as its back-reference. -/
def AtMostOnePerLead (s : AppState) : Prop :=
  ∀ recordId : String, s.opportunities.countP (fun o => o.leadId == recordId) ≤ 1

/-- Strengthened form of the invariant: the back-references are pairwise
distinct. -/
def oppIdsNodup (s : AppState) : Prop :=
  (s.opportunities.map Opportunity.leadId).Nodup

/-- Operations that change the opportunity collection only through the
conversion workflow: direct `addOpportunity` calls and the raw
ADD_OPPORTUNITY / SET_OPPORTUNITIES transitions are excluded. -/
def safeStep : Step → Bool
  | .addOpp _ _ => false
  | .reduce (.addOpportunity _) => false
  | .reduce (.setOpportunities _) => false
  | _ => true

/-- COUNTEREXAMPLE for CLAIM C1: the store's public `addOpportunity` operation
performs no duplicate check, so two direct calls with the same back-reference
reach a state with two opportunities for record id "1". -/
theorem atMostOne_cex :
    ¬ AtMostOnePerLead (applySteps (initialState StoredCell.absent)
        [Step.addOpp sampleOpp "u1", Step.addOpp sampleOpp "u2"]) :=
  fun h => absurd (h "1") (by decide)

/-- Safe reducer transitions leave the opportunity collection untouched. -/
theorem opps_appReducer_safe (s : AppState) (a : Action)
    (h : safeStep (.reduce a) = true) :
    (appReducer s a).opportunities = s.opportunities := by
  cases a <;> simp_all [appReducer, safeStep]

/-- `updateLead` never touches the opportunity collection. -/
theorem opps_updateLead (s : AppState) (leadId : String) (p : LeadPatch)
    (o f : Bool) :
    (updateLead s leadId p o f).opportunities = s.opportunities := by
  cases hl : s.leads.find? (fun l => l.id == leadId) <;>
    cases o <;> cases f <;> simp [updateLead, hl, appReducer]

/-- SET_LOADING leaves the opportunity collection untouched. -/
theorem opps_setLoading (s : AppState) (b : Bool) :
    (appReducer s (.setLoading b)).opportunities = s.opportunities := rfl

/-- The `addOpportunity` action creator appends exactly the re-identified
opportunity. -/
theorem opps_addOpportunity (s : AppState) (o : Opportunity) (fid : String) :
    (addOpportunity s o fid).opportunities
      = s.opportunities ++ [{ o with id := fid }] := rfl

/-- Conversion preserves distinctness of back-references: the duplicate check
guards the only append. -/
theorem nodup_convert (s : AppState) (leadId : String) (env : ConvEnv)
    (h : oppIdsNodup s) : oppIdsNodup (convertLeadToOpportunity s leadId env) := by
  unfold oppIdsNodup at h ⊢
  cases hl : s.leads.find? (fun l => l.id == leadId) with
  | none => simpa [convertLeadToOpportunity, hl, appReducer] using h
  | some lead =>
      cases ho : s.opportunities.find? (fun o => o.leadId == leadId) with
      | some o => simpa [convertLeadToOpportunity, hl, ho, appReducer] using h
      | none =>
          have hnotin : ∀ o ∈ s.opportunities, ¬ (o.leadId == leadId) = true :=
            List.find?_eq_none.mp ho
          by_cases hcf : env.convertFails = true
          · simpa [convertLeadToOpportunity, hl, ho, hcf, appReducer] using h
          · have hopps : (convertLeadToOpportunity s leadId env).opportunities
                = s.opportunities
                    ++ [{ mkOpportunity lead leadId env with id := env.freshId }] := by
              simp only [convertLeadToOpportunity, hl, ho]
              rw [if_neg hcf, opps_setLoading, opps_updateLead, opps_addOpportunity,
                opps_setLoading]
            rw [hopps, List.map_append]
            apply List.Nodup.append h (by simp)
            intro x hx hx1
            simp only [List.map_cons, List.map_nil, List.mem_cons,
              List.not_mem_nil, or_false] at hx1
            rcases List.mem_map.mp hx with ⟨o, hom, rfl⟩
            have : o.leadId = leadId := by
              simpa [mkOpportunity] using hx1
            exact hnotin o hom (by simp [this])

/-- Safe public operations preserve distinctness of back-references. -/
theorem nodup_applyStep (s : AppState) (st : Step)
    (hsafe : safeStep st = true) (h : oppIdsNodup s) :
    oppIdsNodup (applyStep s st) := by
  cases st with
  | reduce a =>
      unfold oppIdsNodup at h ⊢
      rw [show (applyStep s (.reduce a)).opportunities = (appReducer s a).opportunities
        from rfl, opps_appReducer_safe s a hsafe]
      exact h
  | update leadId p o f =>
      unfold oppIdsNodup at h ⊢
      rw [show (applyStep s (.update leadId p o f)).opportunities
          = (updateLead s leadId p o f).opportunities from rfl, opps_updateLead]
      exact h
  | convert leadId env => exact nodup_convert s leadId env h
  | addOpp o fid => simp [safeStep] at hsafe

/-- CLAIM C1 (amended): starting from any state whose opportunity
back-references are pairwise distinct (in particular the initial state), every
sequence of public operations in which opportunities are only ever added
through the conversion workflow — no direct `addOpportunity` call and no raw
ADD_OPPORTUNITY / SET_OPPORTUNITIES transition — reaches only states with at
most one opportunity per record id. -/
theorem conversion_invariant (s : AppState) (steps : List Step)
    (h : oppIdsNodup s) (hsafe : steps.all safeStep = true) :
    AtMostOnePerLead (applySteps s steps) := by
  have hnd : oppIdsNodup (applySteps s steps) := by
    induction steps generalizing s with
    | nil => exact h
    | cons st t ih =>
        rw [List.all_cons, Bool.and_eq_true] at hsafe
        exact ih (applyStep s st) (nodup_applyStep s st hsafe.1 h) hsafe.2
  intro recordId
  have h1 : (applySteps s steps).opportunities.countP (fun o => o.leadId == recordId)
      = ((applySteps s steps).opportunities.map Opportunity.leadId).countP
          (fun x => x == recordId) := by
    rw [List.countP_map]
    rfl
  rw [h1]
  have h2 : ((applySteps s steps).opportunities.map Opportunity.leadId).countP
        (fun x => x == recordId)
      = ((applySteps s steps).opportunities.map Opportunity.leadId).count recordId := by
    rfl
  rw [h2]
  exact List.nodup_iff_count_le_one.mp hnd recordId

/-- Witness for `conversion_invariant`: a concrete safe run with a load, a
conversion, an edit and a duplicate-conversion attempt. -/
theorem conversion_invariant_w :
    oppIdsNodup (initialState StoredCell.absent)
    ∧ ([Step.reduce (.setLeads [sampleLead]), Step.convert "1" sampleEnv,
        Step.update "1" { email := some "lizzy@longbourn.uk" } true false,
        Step.convert "1" sampleEnv].all safeStep = true)
    ∧ AtMostOnePerLead (applySteps (initialState StoredCell.absent)
        [Step.reduce (.setLeads [sampleLead]), Step.convert "1" sampleEnv,
         Step.update "1" { email := some "lizzy@longbourn.uk" } true false,
         Step.convert "1" sampleEnv]) :=
  ⟨by unfold oppIdsNodup; decide, by decide,
    conversion_invariant (initialState StoredCell.absent) _
      (by unfold oppIdsNodup; decide) (by decide)⟩

/-- Prefix test on character lists: `firstMatches n h` holds when `n` begins
`h` (the inner loop of the substring scan). -/
def firstMatches : List Char → List Char → Bool
  | [], _ => true
  | _ :: _, [] => false
  | c :: cs, d :: ds => c == d && firstMatches cs ds

/-- Substring scan on character lists: JS `String.prototype.includes`. -/
def hasSub (needle : List Char) : List Char → Bool
  | [] => firstMatches needle []
  | d :: ds => firstMatches needle (d :: ds) || hasSub needle ds

/-- Case-insensitive containment: `hay.toLowerCase().includes(needle.toLowerCase())`
from the search filter in `LeadsList.jsx`. -/
def strContainsCI (hay needle : String) : Bool :=
  hasSub needle.toLower.toList hay.toLower.toList

/-- A JS field read `lead[key]` can produce a string, a number, or undefined. -/
inductive FieldVal where
  | str (s : String)
  | num (n : Nat)
  | jsUndefined
deriving Repr, DecidableEq

/-- Dynamic field access `lead[filters.sortBy]` over the lead's own fields. -/
def Lead.field (l : Lead) (key : String) : FieldVal :=
  if key == "id" then .str l.id
  else if key == "name" then .str l.name
  else if key == "company" then .str l.company
  else if key == "email" then .str l.email
  else if key == "source" then .str l.source
  else if key == "score" then .num l.score
  else if key == "status" then .str l.status
  else .jsUndefined

/-- The sort comparator of `filteredLeads` in `LeadsList.jsx`: locale string
comparison (`localeCompare`, abstracted as the parameter `lcmp`) when both
values are strings, numeric difference otherwise, with the descending order
flipping the operands.  The catch-all branch stands for the NaN-producing
arithmetic on undefined values, which no sortable key reaches. -/
def leadCompare (lcmp : String → String → Int) (f : Filters) (a b : Lead) : Int :=
  match Lead.field a f.sortBy, Lead.field b f.sortBy with
  | .str av, .str bv => if f.sortOrder == "desc" then lcmp bv av else lcmp av bv
  | .num av, .num bv =>
      if f.sortOrder == "desc" then (bv : Int) - (av : Int) else (av : Int) - (bv : Int)
  | _, _ => 0

/-- "a stays before b": the comparator returned a non-positive number.  A
stable sort with this relation reproduces the JS `Array.prototype.sort`
(stable since ES2019) on a consistent comparator. -/
def leadLe (lcmp : String → String → Int) (f : Filters) (a b : Lead) : Bool :=
  decide (leadCompare lcmp f a b ≤ 0)

/-- The two filter stages of `filteredLeads`: the search filter (skipped for
the falsy empty string) then the status filter (skipped for "all"). -/
def filterStage (f : Filters) (leads : List Lead) : List Lead :=
  let filtered := if f.search == "" then leads
    else leads.filter fun lead =>
      strContainsCI lead.name f.search || strContainsCI lead.company f.search
  if f.status == "all" then filtered
  else filtered.filter fun lead => lead.status == f.status

/-- The derived view `filteredLeads` of `LeadsList.jsx`: copy, filter by
search and status, then stable-sort by the comparator. -/
def deriveView (lcmp : String → String → Int) (leads : List Lead)
    (f : Filters) : List Lead :=
  (filterStage f leads).mergeSort (leadLe lcmp f)

/-- The claim's filter predicate in the spec's words: name or company contains
the search string case-insensitively (every record when the search is empty)
and the status equals the criteria status (every record for "all"). -/
def matchesFilters (f : Filters) (lead : Lead) : Bool :=
  (f.search == "" || strContainsCI lead.name f.search
      || strContainsCI lead.company f.search)
    && (f.status == "all" || lead.status == f.status)

/-- The two filter stages compute exactly the claim's predicate. -/
theorem filterStage_eq (f : Filters) (leads : List Lead) :
    filterStage f leads = leads.filter (matchesFilters f) := by
  unfold filterStage matchesFilters
  by_cases hs : (f.search == "") = true <;> by_cases ht : (f.status == "all") = true <;>
    simp [hs, ht, List.filter_filter, Bool.and_comm]

/-- For a fixed key, every lead's field read lands in the same shape. -/
theorem field_shape (key : String) :
    (∀ l : Lead, ∃ s, Lead.field l key = .str s)
    ∨ (∀ l : Lead, ∃ n, Lead.field l key = .num n)
    ∨ (∀ l : Lead, Lead.field l key = .jsUndefined) := by
  by_cases h1 : (key == "id") = true
  · exact Or.inl fun l => ⟨l.id, by simp [Lead.field, h1]⟩
  by_cases h2 : (key == "name") = true
  · exact Or.inl fun l => ⟨l.name, by simp [Lead.field, h1, h2]⟩
  by_cases h3 : (key == "company") = true
  · exact Or.inl fun l => ⟨l.company, by simp [Lead.field, h1, h2, h3]⟩
  by_cases h4 : (key == "email") = true
  · exact Or.inl fun l => ⟨l.email, by simp [Lead.field, h1, h2, h3, h4]⟩
  by_cases h5 : (key == "source") = true
  · exact Or.inl fun l => ⟨l.source, by simp [Lead.field, h1, h2, h3, h4, h5]⟩
  by_cases h6 : (key == "score") = true
  · exact Or.inr (Or.inl fun l =>
      ⟨l.score, by simp [Lead.field, h1, h2, h3, h4, h5, h6]⟩)
  by_cases h7 : (key == "status") = true
  · exact Or.inl fun l => ⟨l.status, by simp [Lead.field, h1, h2, h3, h4, h5, h6, h7]⟩
  · exact Or.inr (Or.inr fun l => by simp [Lead.field, h1, h2, h3, h4, h5, h6, h7])

/-- Totality of the comparator relation, given a total locale comparison. -/
theorem leadLe_total (lcmp : String → String → Int) (f : Filters)
    (h1 : ∀ a b, lcmp a b ≤ 0 ∨ lcmp b a ≤ 0) :
    ∀ a b : Lead, leadLe lcmp f a b || leadLe lcmp f b a := by
  intro a b
  unfold leadLe leadCompare
  rcases field_shape f.sortBy with hsh | hsh | hsh
  · obtain ⟨sa, ha⟩ := hsh a
    obtain ⟨sb, hb⟩ := hsh b
    rw [ha, hb]
    by_cases hd : (f.sortOrder == "desc") = true
    · rcases h1 sb sa with h | h <;> simp [hd, h]
    · rcases h1 sa sb with h | h <;> simp [hd, h]
  · obtain ⟨na, ha⟩ := hsh a
    obtain ⟨nb, hb⟩ := hsh b
    rw [ha, hb]
    by_cases hd : (f.sortOrder == "desc") = true <;> simp [hd] <;> omega
  · rw [hsh a, hsh b]
    simp

/-- Transitivity of the comparator relation, given a transitive locale
comparison. -/
theorem leadLe_trans (lcmp : String → String → Int) (f : Filters)
    (h2 : ∀ a b c, lcmp a b ≤ 0 → lcmp b c ≤ 0 → lcmp a c ≤ 0) :
    ∀ a b c : Lead, leadLe lcmp f a b → leadLe lcmp f b c → leadLe lcmp f a c := by
  intro a b c hab hbc
  unfold leadLe leadCompare at hab hbc ⊢
  rcases field_shape f.sortBy with hsh | hsh | hsh
  · obtain ⟨sa, ha⟩ := hsh a
    obtain ⟨sb, hb⟩ := hsh b
    obtain ⟨sc, hc⟩ := hsh c
    rw [ha, hb] at hab
    rw [hb, hc] at hbc
    rw [ha, hc]
    by_cases hd : (f.sortOrder == "desc") = true
    · simp only [hd, if_pos] at hab hbc ⊢
      simp only [decide_eq_true_eq] at hab hbc ⊢
      exact h2 sc sb sa hbc hab
    · simp only [hd, Bool.false_eq_true, if_false, decide_eq_true_eq] at hab hbc ⊢
      exact h2 sa sb sc hab hbc
  · obtain ⟨na, ha⟩ := hsh a
    obtain ⟨nb, hb⟩ := hsh b
    obtain ⟨nc, hc⟩ := hsh c
    rw [ha, hb] at hab
    rw [hb, hc] at hbc
    rw [ha, hc]
    by_cases hd : (f.sortOrder == "desc") = true <;>
      simp [hd] at hab hbc ⊢ <;> omega
  · rw [hsh a, hsh c]
    simp

/-- CLAIM C5 (derived view): the view is a permutation of exactly the records
matching the search and status criteria, every returned record is an element
of the input (the input list itself is never touched — the function is pure),
the output is ordered by the comparator (sortBy field, locale comparison for
text, numeric otherwise, flipped for descending), and records with equal keys
keep their original relative order. -/
theorem deriveView_spec (lcmp : String → String → Int) (f : Filters)
    (leads : List Lead)
    (h1 : ∀ a b, lcmp a b ≤ 0 ∨ lcmp b a ≤ 0)
    (h2 : ∀ a b c, lcmp a b ≤ 0 → lcmp b c ≤ 0 → lcmp a c ≤ 0) :
    (deriveView lcmp leads f).Perm (leads.filter (matchesFilters f))
    ∧ (∀ x ∈ deriveView lcmp leads f, x ∈ leads)
    ∧ (deriveView lcmp leads f).Pairwise (fun a b => leadCompare lcmp f a b ≤ 0)
    ∧ (∀ a b : Lead, leadCompare lcmp f a b = 0 →
        [a, b].Sublist (leads.filter (matchesFilters f)) →
        [a, b].Sublist (deriveView lcmp leads f)) := by
  have htot := leadLe_total lcmp f h1
  have htr : ∀ a b c : Lead,
      leadLe lcmp f a b → leadLe lcmp f b c → leadLe lcmp f a c :=
    leadLe_trans lcmp f h2
  have hperm : (deriveView lcmp leads f).Perm (leads.filter (matchesFilters f)) := by
    rw [deriveView, filterStage_eq]
    exact List.mergeSort_perm _ _
  refine ⟨hperm, ?_, ?_, ?_⟩
  · intro x hx
    exact List.mem_of_mem_filter (hperm.mem_iff.mp hx)
  · exact (List.sorted_mergeSort htr htot (filterStage f leads)).imp
      fun h => of_decide_eq_true h
  · intro a b h0 hsub
    rw [deriveView]
    refine List.pair_sublist_mergeSort htr htot ?_ ?_
    · simp [leadLe, h0]
    · rw [filterStage_eq]
      exact hsub

/-- A second sample lead, for concrete view computations. -/
def sampleLead2 : Lead :=
  { id := "2", name := "Fitzwilliam Darcy", company := "Pemberley Estates"
    email := "", source := "", score := 80, status := "contacted" }

/-- A concrete total transitive string comparison: compare by length. -/
def lenCmp (a b : String) : Int := (a.length : Int) - (b.length : Int)

/-- Witness for `deriveView_spec` with the length comparator, the default
criteria and two sample leads. -/
theorem deriveView_spec_w :
    (∀ a b : String, lenCmp a b ≤ 0 ∨ lenCmp b a ≤ 0)
    ∧ (∀ a b c : String, lenCmp a b ≤ 0 → lenCmp b c ≤ 0 → lenCmp a c ≤ 0)
    ∧ ((deriveView lenCmp [sampleLead, sampleLead2] defaultFilters).Perm
          ([sampleLead, sampleLead2].filter (matchesFilters defaultFilters))
      ∧ (∀ x ∈ deriveView lenCmp [sampleLead, sampleLead2] defaultFilters,
          x ∈ [sampleLead, sampleLead2])
      ∧ (deriveView lenCmp [sampleLead, sampleLead2] defaultFilters).Pairwise
          (fun a b => leadCompare lenCmp defaultFilters a b ≤ 0)
      ∧ (∀ a b : Lead, leadCompare lenCmp defaultFilters a b = 0 →
          [a, b].Sublist ([sampleLead, sampleLead2].filter (matchesFilters defaultFilters)) →
          [a, b].Sublist (deriveView lenCmp [sampleLead, sampleLead2] defaultFilters))) :=
  ⟨fun a b => by unfold lenCmp; omega,
   fun a b c hab hbc => by unfold lenCmp at hab hbc ⊢; omega,
   deriveView_spec lenCmp defaultFilters [sampleLead, sampleLead2]
     (fun a b => by unfold lenCmp; omega)
     (fun a b c hab hbc => by unfold lenCmp at hab hbc ⊢; omega)⟩

/-- The timer-extended store: the reducer state, a virtual clock in
milliseconds, and the deadline of the pending auto-clear timer scheduled by
the error effect (the `useEffect` on `state.error` in `AppContext.jsx`). -/
structure TimedState where
  app : AppState
  now : Nat
  deadline : Option Nat
deriving Repr, DecidableEq

/-- Re-run of the error effect after a dispatch: when the error value changed
(the `[state.error]` dependency array), the cleanup cancels the previous timer
and, if the new error is non-null, a fresh 5000 ms `setTimeout` is scheduled;
an unchanged error leaves the pending timer alone. -/
def syncTimer (oldErr : Option String) (ts : TimedState) : TimedState :=
  if ts.app.error = oldErr then ts
  else { ts with
          deadline := if ts.app.error.isSome then some (ts.now + 5000) else none }

/-- Dispatch an action through the reducer, then re-run the error effect. -/
def dispatchT (ts : TimedState) (a : Action) : TimedState :=
  syncTimer ts.app.error { ts with app := appReducer ts.app a }

/-- Advance the virtual clock by `d` ms with no intervening action: when the
pending timer's deadline falls inside the window it fires there, dispatching
CLEAR_ERROR (the `clearError` callback captured by the timeout). -/
def advance (ts : TimedState) (d : Nat) : TimedState :=
  match ts.deadline with
  | some t =>
      if t ≤ ts.now + d then
        let fired := dispatchT { ts with now := t, deadline := none } .clearError
        { fired with now := ts.now + d }
      else { ts with now := ts.now + d }
  | none => { ts with now := ts.now + d }

/-- CLAIM C6 (error auto-clear): from a state where an error was just set (a
5000 ms timer is pending), with no intervening action the error is gone after
exactly 5000 ms and still present after 4999 ms; and when a different error is
set, or an explicit clear happens, before the timer fires, the superseded
timer is cancelled — advancing past its old deadline never clears the newer
error. -/
theorem error_autoclear (ts : TimedState) (e1 e2 : String) (d1 d2 : Nat)
    (he : ts.app.error = some e1)
    (hd : ts.deadline = some (ts.now + 5000))
    (hd1 : d1 < 5000) (hd2 : d2 < 5000) (hsum : 5000 ≤ d1 + d2)
    (hne : e2 ≠ e1) :
    (advance ts 5000).app.error = none
    ∧ (advance ts 4999).app.error = some e1
    ∧ (advance (dispatchT (advance ts d1) (.setError (some e2))) d2).app.error
        = some e2
    ∧ (advance (dispatchT (advance ts d1) .clearError) d2).app.error = none := by
  have hfire : (advance ts 5000).app.error = none := by
    simp only [advance, hd]
    rw [if_pos (by omega)]
    simp [dispatchT, syncTimer, appReducer, he]
  have hwait : (advance ts 4999).app.error = some e1 := by
    simp only [advance, hd]
    rw [if_neg (by omega)]
    exact he
  have h3 : advance ts d1 = { ts with now := ts.now + d1 } := by
    simp only [advance, hd]
    rw [if_neg (by omega)]
  have h4 : dispatchT { ts with now := ts.now + d1 } (.setError (some e2))
      = { app := { ts.app with error := some e2, isLoading := false }
          now := ts.now + d1
          deadline := some (ts.now + d1 + 5000) } := by
    simp [dispatchT, syncTimer, appReducer, he, hne]
  have h5 : (advance (dispatchT (advance ts d1) (.setError (some e2))) d2).app.error
      = some e2 := by
    rw [h3, h4]
    simp only [advance]
    rw [if_neg (by omega)]
  have h6 : dispatchT { ts with now := ts.now + d1 } .clearError
      = { app := { ts.app with error := none }
          now := ts.now + d1
          deadline := none } := by
    simp [dispatchT, syncTimer, appReducer, he]
  have h7 : (advance (dispatchT (advance ts d1) .clearError) d2).app.error = none := by
    rw [h3, h6]
    simp [advance]
  exact ⟨hfire, hwait, h5, h7⟩

/-- A concrete timed state: the sample store just after an error was set. -/
def sampleTimed : TimedState :=
  { app := { sampleState with error := some "first failure" }
    now := 0
    deadline := some 5000 }

/-- Witness for `error_autoclear` at a concrete timed state. -/
theorem error_autoclear_w :
    sampleTimed.app.error = some "first failure"
    ∧ sampleTimed.deadline = some (sampleTimed.now + 5000)
    ∧ (1000 < 5000 ∧ 4000 < 5000 ∧ 5000 ≤ 1000 + 4000
        ∧ "second failure" ≠ "first failure")
    ∧ ((advance sampleTimed 5000).app.error = none
      ∧ (advance sampleTimed 4999).app.error = some "first failure"
      ∧ (advance (dispatchT (advance sampleTimed 1000)
            (.setError (some "second failure"))) 4000).app.error
          = some "second failure"
      ∧ (advance (dispatchT (advance sampleTimed 1000) .clearError) 4000).app.error
          = none) :=
  ⟨rfl, by decide, by decide,
    error_autoclear sampleTimed "first failure" "second failure" 1000 4000
      rfl (by decide) (by decide) (by decide) (by decide) (by decide)⟩
end Seller
